import Mathlib

/-!
Shallow embedding of the shopping-assistant repository's preference state
machine and retrieval pipeline, translated from:
  src/models/preferences.py, src/services/preference_service.py,
  src/services/search_service.py, src/utils/validators.py,
  src/workflows/conversation_flow.py, src/config/settings.py.
Prices are modelled as rationals; Python's in-place mutation of the single
`current_preferences` record is modelled by explicit state passing.
-/

namespace Shop

/-- Python's `needle in hay` test on lists of characters: `seqStarts n h`
is true when `n` is an initial segment of `h`. -/
def seqStarts : List Char → List Char → Bool
  | [], _ => true
  | _ :: _, [] => false
  | a :: as, b :: bs => a == b && seqStarts as bs

/-- `seqIn n h` is true when `n` occurs contiguously inside `h`. -/
def seqIn (n : List Char) : List Char → Bool
  | [] => n.isEmpty
  | c :: t => seqStarts n (c :: t) || seqIn n t

/-- Python's substring test `needle in hay` for strings. -/
def strHasSub (hay needle : String) : Bool :=
  seqIn needle.toList hay.toList

/-- Python's `str.lower()` (the repository's data is ASCII). -/
def pyLower (s : String) : String := (s.toList.map Char.toLower).asString

/-- Python's `str.strip()`: drops leading and trailing whitespace. -/
def pyTrim (s : String) : String :=
  (((s.toList.dropWhile Char.isWhitespace).reverse.dropWhile Char.isWhitespace).reverse).asString

/-- Worker for `pyDedup`: keeps the first occurrence of each element,
carrying the set of elements already seen (models `dict.fromkeys`). -/
def pyDedupGo (seen : List String) : List String → List String
  | [] => []
  | x :: xs => if x ∈ seen then pyDedupGo seen xs else x :: pyDedupGo (x :: seen) xs

/-- Python's `list(dict.fromkeys(l))`: removes duplicates keeping the first
occurrence of each element, preserving order. -/
def pyDedup (l : List String) : List String := pyDedupGo [] l

/-- Deduplication as the spec words it: keep each element at its first-seen
position, dropping later repeats.  Used as the independent spec-side
description that the code's `dict.fromkeys` idiom is compared against. -/
def specDedup : List String → List String
  | [] => []
  | x :: xs => x :: specDedup (xs.filter (fun y => decide (y ≠ x)))
termination_by l => l.length
decreasing_by
  simp only [List.length_cons]
  exact Nat.lt_succ_of_le (List.length_filter_le _ _)

/-- Worker for `pyWordCount`: counts maximal whitespace-free runs; the flag
records whether the scan is currently inside a word. -/
def countWords (inWord : Bool) : List Char → Nat
  | [] => 0
  | c :: t =>
    if c.isWhitespace then countWords false t
    else (if inWord then 0 else 1) + countWords true t

/-- Python's `len(s.split())`: number of maximal whitespace-free words. -/
def pyWordCount (s : String) : Nat := countWords false s.toList

/-- Python's `l[-n:]`. -/
def takeLast (n : Nat) (l : List α) : List α := l.drop (l.length - n)

/-! ### Fixed vocabularies, from src/config/settings.py -/

/-- `BAG_CATEGORIES` from src/config/settings.py. -/
def BAG_CATEGORIES : List String :=
  ["tote", "shoulder bag", "duffle bag", "backpack", "clutch", "crossbody",
   "handbag", "messenger", "satchel", "laptop bag", "briefcase", "wristlet",
   "wallet", "purse"]

/-- `VALID_BRANDS` from src/config/settings.py. -/
def VALID_BRANDS : List String :=
  ["1978W", "Active Flex", "Alan Pinkus", "Amelia Lane", "American Tourister", "Armani Exchange",
   "Australian House & Garden", "Basque", "Belle & Bloom", "Billabong", "Boutique Retailer",
   "Calvin Klein", "Cellini", "Cellini Sport", "Commonry", "Country Road", "Creed", "David Lawrence",
   "Delsey", "Disney", "Dune London", "Elliker", "emerge Woman", "Fella Hamilton", "Fine Day",
   "Forever New", "Fossil", "GAP", "Guess", "Hedgren", "Hot Wheels", "Jane Debster",
   "Joan Weisz", "Kinnon", "La Enviro", "Lacoste", "Lauren Ralph Lauren", "Levi's",
   "Madison Accessories", "Maine & Crawford", "Marcs", "Maxwell & Williams", "Milleni", "Mimco",
   "Mocha", "Morgan & Taylor", "Nakedvice", "NINA", "Nine West", "Novo Shoes", "OiOi", "Olga Berg",
   "Oxford", "PIERRE CARDIN", "PINK INC", "Piper", "Prairie", "Radley", "Ravella", "Rebecca Minkoff",
   "REVIEW", "Roxy", "RVCA", "Samsonite", "Sandler", "Sass & Bide", "Scala", "Seafolly",
   "Seed Heritage", "Senso", "Status Anxiety", "Steve Madden", "Taking Shape", "TATONKA", "Tokito",
   "Tommy Hilfiger", "Tonic", "Trenery", "Trent Nathan", "Unison", "Wishes", "Witchery", "Yellow Drama"]

/-- `BRAND_CORRECTIONS` from src/config/settings.py. -/
def BRAND_CORRECTIONS : List (String × String) :=
  [("ck", "Calvin Klein"), ("rm", "Rebecca Minkoff"), ("th", "Tommy Hilfiger"),
   ("pierre", "PIERRE CARDIN"), ("calvin", "Calvin Klein"), ("tommy", "Tommy Hilfiger"),
   ("ralph lauren", "Lauren Ralph Lauren"), ("american t", "American Tourister"),
   ("fossil bag", "Fossil"), ("guess bag", "Guess")]

/-! ### Preference Record, from src/models/preferences.py -/

/-- `UserPreferences` from src/models/preferences.py; all fields default to
empty/None exactly as in the dataclass. -/
@[ext]
structure UserPreferences where
  price_min : Option ℚ := none
  price_max : Option ℚ := none
  brands : List String := []
  categories : List String := []
  colors : List String := []
  materials : List String := []
  features : List String := []
deriving DecidableEq

/-- `UserPreferences.clear` resets every field to its empty/None default;
modelled as the cleared record value. -/
def clearedPreferences : UserPreferences := {}

/-- `UserPreferences.has_active_preferences`. -/
def hasActivePreferences (p : UserPreferences) : Bool :=
  p.price_min.isSome || p.price_max.isSome || !p.brands.isEmpty ||
  !p.categories.isEmpty || !p.colors.isEmpty || !p.materials.isEmpty ||
  !p.features.isEmpty

/-! ### Preference normalization and merging, from src/services/preference_service.py -/

/-- `PreferenceService._validate_brands`: exact case-insensitive match against
`VALID_BRANDS`, then the `BRAND_CORRECTIONS` table, else rejected. -/
def validateBrands : List String → List String × List String
  | [] => ([], [])
  | b :: rest =>
    let (vs, invs) := validateBrands rest
    let bl := pyTrim (pyLower b)
    match VALID_BRANDS.find? (fun vb => pyLower vb == bl) with
    | some vb => (vb :: vs, invs)
    | none =>
      match BRAND_CORRECTIONS.lookup bl with
      | some c => (c :: vs, invs)
      | none => (vs, b :: invs)

/-- The `category_corrections` table inside `_validate_categories`. -/
def categoryCorrections : List (String × String) :=
  [("tote", "tote bag"), ("cross body", "crossbody"), ("cross-body", "crossbody"),
   ("shoulder", "shoulder bag"), ("laptop", "laptop bag"), ("duffle", "duffle bag"),
   ("duffel", "duffle bag")]

/-- `PreferenceService._validate_categories`: returns the validated category
list and the list of tokens to be moved into `features`. -/
def validateCategories : List String → List String × List String
  | [] => ([], [])
  | c :: rest =>
    let (vs, fs) := validateCategories rest
    let cat := pyTrim (pyLower c)
    if cat ∈ BAG_CATEGORIES then (cat :: vs, fs)
    else
      match categoryCorrections.lookup cat with
      | some corrected =>
        if corrected ∈ BAG_CATEGORIES then (corrected :: vs, fs) else (vs, fs)
      | none =>
        if (cat ++ " bag") ∈ BAG_CATEGORIES then ((cat ++ " bag") :: vs, fs)
        else if cat ≠ "tote" then (vs, cat :: fs)
        else (vs, fs)

/-- The `append_indicators` table inside `_analyze_intent`. -/
def appendIndicators : List String :=
  ["also", "as well", "additionally", "and", "too", "along with"]

/-- `PreferenceService._analyze_intent`: append mode iff the lowercased
utterance contains any append indicator as a substring. -/
def analyzeIntent (userInput : String) : Bool :=
  appendIndicators.any (fun ind => strHasSub (pyLower userInput) ind)

/-- `PreferenceService._merge_preferences`: append mode extends then
deduplicates each set field; replace mode overwrites only non-empty delta
fields; prices overwrite whenever non-None, in either mode. -/
def mergePreferences (cur np : UserPreferences) (appendMode : Bool) : UserPreferences :=
  let base :=
    if appendMode then
      { cur with
        brands := pyDedup (cur.brands ++ np.brands),
        categories := pyDedup (cur.categories ++ np.categories),
        colors := pyDedup (cur.colors ++ np.colors),
        materials := pyDedup (cur.materials ++ np.materials),
        features := pyDedup (cur.features ++ np.features) }
    else
      { cur with
        brands := if np.brands.isEmpty then cur.brands else np.brands,
        categories := if np.categories.isEmpty then cur.categories else np.categories,
        colors := if np.colors.isEmpty then cur.colors else np.colors,
        materials := if np.materials.isEmpty then cur.materials else np.materials,
        features := if np.features.isEmpty then cur.features else np.features }
  { base with
    price_min := match np.price_min with | some v => some v | none => cur.price_min,
    price_max := match np.price_max with | some v => some v | none => cur.price_max }

/-- The validation half of `PreferenceService._validate_and_merge`: brand
validation, then category validation with the rejected tokens appended to the
delta's features. -/
def validateDelta (np : UserPreferences) : UserPreferences :=
  let np1 := if np.brands.isEmpty then np else { np with brands := (validateBrands np.brands).1 }
  if np1.categories.isEmpty then np1
  else
    let vc := validateCategories np1.categories
    { np1 with categories := vc.1, features := np1.features ++ vc.2 }

/-- `PreferenceService._validate_and_merge`: validate the delta, then merge it
into the current record under the detected append/replace intent. -/
def validateAndMerge (cur np : UserPreferences) (userInput : String) : UserPreferences :=
  mergePreferences cur (validateDelta np) (analyzeIntent userInput)

/-! ### Relevance check and candidate filtering, from src/utils/validators.py -/

/-- The `shopping_terms` table inside `is_relevant_to_shopping`. -/
def shoppingTerms : List String :=
  ["bag", "handbag", "purse", "tote", "backpack", "clutch", "wallet",
   "shopping", "buy", "purchase", "price", "cost", "delivery", "shipping",
   "brand", "leather", "canvas", "product", "item", "store"]

/-- The `common_phrases` table inside `is_relevant_to_shopping`. -/
def commonPhrases : List String :=
  ["hi", "hello", "thank", "bye", "help", "clear", "reset"]

/-- `is_relevant_to_shopping` from src/utils/validators.py: the lowercased
input must contain some shopping term or courtesy phrase as a substring. -/
def isRelevantToShopping (userInput : String) : Bool :=
  (shoppingTerms ++ commonPhrases).any (fun t => strHasSub (pyLower userInput) t)

/-- The value found at `doc.metadata.get('price', 0)`: a JSON number, a JSON
string, or Python `None`.  A document without a price key yields the default
`0`, i.e. `.num 0`. -/
inductive PVal where
  | num (q : ℚ)
  | str (s : String)
  | none_
deriving DecidableEq

/-- `digitsVal ds` is the number denoted by a run of decimal digits. -/
def digitsVal (ds : List Char) : Nat :=
  ds.foldl (fun n c => 10 * n + (c.toNat - '0'.toNat)) 0

/-- Unsigned decimal literal: digits with an optional fractional part
(at least one digit overall). -/
def parseUnsigned (body : List Char) : Option ℚ :=
  let intPart := body.takeWhile Char.isDigit
  let rest := body.dropWhile Char.isDigit
  match rest with
  | [] => if intPart.isEmpty then none else some (digitsVal intPart)
  | '.' :: frac =>
    if frac.all Char.isDigit && !(intPart.isEmpty && frac.isEmpty) then
      some ((digitsVal intPart : ℚ) + (digitsVal frac : ℚ) / (10 : ℚ) ^ frac.length)
    else none
  | _ => none

/-- Model of Python's `float(s)` on decimal literals: an optional sign, then
digits with an optional fractional part; anything else (in particular any
string containing `$` or `,`) fails. -/
def parseFloat (s : String) : Option ℚ :=
  match s.toList with
  | '-' :: rest => (parseUnsigned rest).map (fun q => -q)
  | '+' :: rest => parseUnsigned rest
  | cs => parseUnsigned cs

/-- Python's `s.replace('$', '').replace(',', '')`. -/
def stripDollarComma (s : String) : String :=
  (s.toList.filter (fun c => !(c == '$' || c == ','))).asString

/-- The price parse done inside `matches_preferences`: strings are stripped of
`$` and `,` before `float`; `None` raises and is treated as unparseable. -/
def innerParsePrice : PVal → Option ℚ
  | .num q => some q
  | .str s => parseFloat (stripDollarComma s)
  | .none_ => none

/-- The bare `float(...)` conversion done inside `search_products`
(no `$`/`,` stripping). -/
def pyFloatPrice : PVal → Option ℚ
  | .num q => some q
  | .str s => parseFloat s
  | .none_ => none

/-- A retrieved candidate document (langchain `Document`): its url, free-text
content and the `name`/`brand`/`price` metadata.  Absent `name`/`brand`
keys are the empty string, an absent `price` key is `.num 0`, matching the
`meta.get(..., default)` calls in the source. -/
structure Doc where
  url : String
  page_content : String
  name : String
  brand : String
  price : PVal
deriving DecidableEq

/-- `matches_preferences` from src/utils/validators.py. -/
def matchesPreferences (d : Doc) (p : UserPreferences) : Bool :=
  let searchable := pyLower d.name ++ " " ++ pyLower d.page_content
  let priceOK :=
    if p.price_min.isSome || p.price_max.isSome then
      match innerParsePrice d.price with
      | none => false
      | some dp =>
        (match p.price_max with | some M => decide (dp ≤ M) | none => true) &&
        (match p.price_min with | some m => decide (m ≤ dp) | none => true)
    else true
  priceOK &&
  (p.brands.isEmpty || p.brands.any (fun b => strHasSub (pyLower d.brand) (pyLower b))) &&
  (p.colors.isEmpty || p.colors.any (fun c => strHasSub searchable (pyLower c))) &&
  (p.categories.isEmpty || p.categories.any (fun c => strHasSub searchable (pyLower c)))

/-! ### Product search, from src/services/search_service.py -/

/-- `SearchService.build_search_query_with_preferences`: the utterance
followed by materials, colors, categories and brands, space-separated. -/
def buildSearchQuery (q : String) (p : UserPreferences) : String :=
  String.intercalate (" ") ([q] ++ p.materials ++ p.colors ++ p.categories ++ p.brands)

/-- The per-candidate step of `search_products`: keep the document if its url
is a known catalog asset and it matches the preferences; then `float` its
price, dropping the document if that raises, and store the parsed number back
into the metadata. -/
def normalizeKeep (catalog : List String) (p : UserPreferences) (d : Doc) : Option Doc :=
  if catalog.contains d.url && matchesPreferences d p then
    match pyFloatPrice d.price with
    | some v => some { d with price := .num v }
    | none => none
  else none

/-- Sort key `float(x.metadata.get('price', 0))` used by `search_products`
(every kept document has a numeric price by then). -/
def priceKey (d : Doc) : ℚ := (pyFloatPrice d.price).getD 0

/-- Stable insertion into a price-descending list: the new element goes after
every earlier element with a greater-or-equal price. -/
def insertDesc (x : Doc) : List Doc → List Doc
  | [] => [x]
  | y :: ys => if priceKey y ≤ priceKey x then x :: y :: ys else y :: insertDesc x ys

/-- Python's stable `list.sort(key=price, reverse=True)`, modelled as a stable
insertion sort by descending price. -/
def sortByPriceDesc : List Doc → List Doc
  | [] => []
  | x :: xs => insertDesc x (sortByPriceDesc xs)

/-- The filter/sort/truncate core of `SearchService.search_products`, applied
to the list of candidates returned by the vector store. -/
def searchProducts (retrieved : List Doc) (catalog : List String)
    (p : UserPreferences) (maxResults : Nat := 6) : List Doc :=
  (sortByPriceDesc (retrieved.filterMap (normalizeKeep catalog p))).take maxResults

/-- The `search_keywords` table inside `should_search_products`. -/
def searchKeywords : List String :=
  ["show", "find", "search", "look", "recommend", "suggest", "want", "need",
   "display", "see", "browse", "shopping", "buy", "purchase", "get me",
   "what about", "how about", "any", "do you have"]

/-- The `product_terms` table inside `should_search_products`. -/
def productTerms : List String :=
  ["bag", "handbag", "purse", "tote", "backpack", "clutch", "wallet",
   "crossbody", "shoulder", "messenger", "satchel", "briefcase"]

/-- The `refinement_terms` table inside `should_search_products`. -/
def refinementTerms : List String :=
  ["leather", "canvas", "black", "brown", "cheap", "expensive", "small", "large"]

/-- `SearchService.should_search_products`: explicit search keywords, then
refinement terms or a short utterance while preferences are active, then
product nouns; otherwise (Python's implicit `return None`) no search. -/
def shouldSearchProducts (userInput : String) (hasPrefs : Bool) : Bool :=
  let l := pyLower userInput
  if searchKeywords.any (fun k => strHasSub l k) then true
  else if hasPrefs && (refinementTerms.any (fun t => strHasSub l t) || pyWordCount userInput ≤ 3) then
    true
  else productTerms.any (fun t => strHasSub l t)

/-! ### Conversation workflow, from src/workflows/conversation_flow.py -/

/-- One entry of the `ConversationBufferMemory` chat history. -/
inductive Msg where
  | human (s : String)
  | ai (s : String)
deriving DecidableEq

/-- Rendering of one history message inside `_handle_general_conversation`. -/
def renderMsg : Msg → String
  | .human s => "User: " ++ s
  | .ai s => "Assistant: " ++ s

/-- The graph state dict built by `process_message` (the `chat_history` key is
never read by the workflow logic and is omitted). -/
structure BotState where
  question : String
  answer : String
  should_retrieve : Bool
deriving DecidableEq

/-- The external collaborators of the workflow: the preference-extraction
chain (`run` + `json.loads` + `from_dict` collapsed into one fallible call),
the conversation chain, the vector store with its availability flag, the
catalog membership table `url_to_image`, and the product formatter.  Each
fallible call returns `Except Unit`, an `.error` standing for a raised
exception. -/
structure Collabs where
  prefChain : Option (String → UserPreferences → Except Unit UserPreferences)
  convChain : Option (String → String → String → Except Unit String)
  vectorAvailable : Bool
  vectorSearch : String → Nat → Except Unit (List Doc)
  catalog : List String
  format : Doc → String

/-- `SearchService.search_products` including the vector-store call: an empty
result if the store is unavailable, the raised exception if retrieval fails,
otherwise the filtered/sorted/truncated candidates. -/
def searchProductsE (C : Collabs) (query : String) (p : UserPreferences) :
    Except Unit (List Doc) :=
  if !C.vectorAvailable then .ok []
  else
    match C.vectorSearch (buildSearchQuery query p) 30 with
    | .error e => .error e
    | .ok docs => .ok (searchProducts docs C.catalog p 6)

/-- `PreferenceService.get_summary`.  `qRepr` stands in for Python's float
formatting; no theorem below depends on the rendered digits. -/
def qRepr (q : ℚ) : String := toString q

/-- Python truthiness of an optional numeric field (`0` is falsy). -/
def priceTruthy : Option ℚ → Bool
  | some v => decide (v ≠ 0)
  | none => false

/-- `PreferenceService.get_summary` from src/services/preference_service.py. -/
def getSummary (p : UserPreferences) : String :=
  let priceParts : List String :=
    if priceTruthy p.price_min && priceTruthy p.price_max then
      ["Price: $" ++ qRepr ((p.price_min).getD 0) ++ "-$" ++ qRepr ((p.price_max).getD 0)]
    else if priceTruthy p.price_min then ["Price: Above $" ++ qRepr ((p.price_min).getD 0)]
    else if priceTruthy p.price_max then ["Price: Under $" ++ qRepr ((p.price_max).getD 0)]
    else []
  let parts := priceParts ++
    (if p.brands.isEmpty then [] else ["Brands: " ++ String.intercalate (", ") p.brands]) ++
    (if p.categories.isEmpty then [] else ["Categories: " ++ String.intercalate (", ") p.categories]) ++
    (if p.colors.isEmpty then [] else ["Colors: " ++ String.intercalate (", ") p.colors]) ++
    (if p.materials.isEmpty then [] else ["Materials: " ++ String.intercalate (", ") p.materials])
  if parts.isEmpty then ("No active preferences set") else String.intercalate (" | ") parts

/-- `PreferenceService.update_preferences`, which also returns the state of
the `to_dict().copy()` snapshot taken by `_handle_preference_update` after the
update ran.  The snapshot dict shares its list objects with the record, and in
append mode `_merge_preferences` extends those lists in place before rebinding
the deduplicated copies — so the snapshot's list fields end up holding the
extended (un-deduplicated) lists, while replace mode only rebinds and leaves
the snapshot untouched.  The first component is that snapshot; the second is
the record after the update (both equal the input record when the chain is
missing, raises, or returns unparseable output). -/
def updateOutcome (C : Collabs) (cur : UserPreferences) (input : String) :
    UserPreferences × UserPreferences :=
  match C.prefChain with
  | none => (cur, cur)
  | some f =>
    match f input cur with
    | .error _ => (cur, cur)
    | .ok delta =>
      let np := validateDelta delta
      let mode := analyzeIntent input
      let snapshot :=
        if mode then
          { cur with
            brands := cur.brands ++ np.brands,
            categories := cur.categories ++ np.categories,
            colors := cur.colors ++ np.colors,
            materials := cur.materials ++ np.materials,
            features := cur.features ++ np.features }
        else cur
      (snapshot, mergePreferences cur np mode)

/-- `PreferenceService.update_preferences`: the record after the turn's
extraction + validate + merge (unchanged on any failure). -/
def updatePreferences (C : Collabs) (cur : UserPreferences) (input : String) :
    UserPreferences :=
  (updateOutcome C cur input).2

/-- The fixed redirect of `_process_input_and_route` for irrelevant input. -/
def redirectMsg : String :=
  "I'm here to help with shopping-related questions like products, prices, or bags. Let me know how I can assist you with that!"

/-- The canned reply of `_handle_general_conversation` when the conversation
chain is missing or raises. -/
def cannedHelpMsg : String :=
  "I'm here to help you find bags and accessories! What are you looking for?"

/-- The acknowledgement returned after a reset phrase clears the record. -/
def clearAckMsg : String :=
  "Your preferences have been cleared! Feel free to set new ones."

/-- The message of `_handle_product_search` when search raises. -/
def searchErrorMsg : String :=
  "Sorry, I encountered an error while searching. Please try again."

/-- The message of `_handle_product_search` when no candidate survives. -/
def noProductsMsg : String :=
  "I couldn't find any products matching your criteria. Try adjusting your preferences."

/-- The last-resort catch-all of `process_message`. -/
def techDifficultiesMsg : String :=
  "I apologize, but I'm experiencing some technical difficulties. Please try again."

/-- The product answer of `_handle_product_search`. -/
def productsMsg (joined : String) : String :=
  "Here are some products that match your criteria, sorted by price (highest to lowest):\n<div style=\"display: flex; flex-wrap: wrap; gap: 20px; justify-content: center;\">\n" ++
  joined ++ "\n</div>"

/-- The preference-update answer of `_handle_preference_update` when products
were found. -/
def updatedMatchMsg (summary joined : String) : String :=
  "Updated preferences to: " ++ summary ++
  "\n                    \nHere are products matching your updated criteria:\n<div style=\"display: flex; flex-wrap: wrap; gap: 20px; justify-content: center;\">\n" ++
  joined ++ "\n</div>"

/-- The preference-update answer of `_handle_preference_update` when no
product matched. -/
def updatedNoMatchMsg (summary : String) : String :=
  "Updated preferences to: " ++ summary ++
  "\n                    \nI couldn't find any products matching these exact criteria. Try adjusting your preferences."

/-- The `reset`-phrase table of `_handle_general_conversation`. -/
def resetPhrases : List String := ["clear preferences", "reset preferences", "start over"]

/-- The reset test of `_handle_general_conversation`. -/
def containsResetPhrase (q : String) : Bool :=
  resetPhrases.any (fun ph => strHasSub (pyLower q) ph)

/-- `ConversationWorkflow._process_input_and_route`: irrelevant input gets the
redirect answer and no retrieval; otherwise preferences are updated and the
search decision is taken against the updated record. -/
def processInputAndRoute (C : Collabs) (prefs : UserPreferences) (st : BotState) :
    BotState × UserPreferences :=
  if !isRelevantToShopping st.question then
    ({ st with answer := redirectMsg, should_retrieve := false }, prefs)
  else
    let prefs1 := updatePreferences C prefs st.question
    ({ st with should_retrieve := shouldSearchProducts st.question (hasActivePreferences prefs1) },
     prefs1)

/-- `ConversationWorkflow._handle_preference_update`: re-runs the extraction,
compares the (aliased, possibly mutated) snapshot against the updated record,
and on a detected change answers with the new summary plus a re-search.  A
raised search exception is caught and the handler reports no update, with the
record left in its already-mutated state. -/
def handlePreferenceUpdate (C : Collabs) (prefs : UserPreferences) (st : BotState) :
    Bool × BotState × UserPreferences :=
  let out := updateOutcome C prefs st.question
  let snapshot := out.1
  let updated := out.2
  if snapshot ≠ updated then
    match searchProductsE C st.question updated with
    | .error _ => (false, st, updated)
    | .ok docs =>
      if docs.isEmpty then
        (true, { st with answer := updatedNoMatchMsg (getSummary updated) }, updated)
      else
        (true,
         { st with answer := updatedMatchMsg (getSummary updated) (String.join (docs.map C.format)) },
         updated)
  else (false, st, updated)

/-- `ConversationWorkflow._handle_product_search`. -/
def handleProductSearch (C : Collabs) (prefs : UserPreferences) (st : BotState) : BotState :=
  match searchProductsE C st.question prefs with
  | .error _ => { st with answer := searchErrorMsg }
  | .ok docs =>
    if docs.isEmpty then { st with answer := noProductsMsg }
    else { st with answer := productsMsg (String.join (docs.map C.format)) }

/-- `ConversationWorkflow._handle_general_conversation`: reset phrases clear
the record and acknowledge; otherwise the conversation chain answers, falling
back to the canned reply when the chain is missing or raises. -/
def handleGeneralConversation (C : Collabs) (prefs : UserPreferences) (mem : List Msg)
    (st : BotState) : BotState × UserPreferences :=
  if containsResetPhrase st.question then
    ({ st with answer := clearAckMsg }, clearedPreferences)
  else
    match C.convChain with
    | none => ({ st with answer := cannedHelpMsg }, prefs)
    | some f =>
      let recent := takeLast 6 mem
      let recentStr := String.intercalate ("\n") (recent.map renderMsg)
      match f (getSummary prefs) recentStr st.question with
      | .ok text => ({ st with answer := text }, prefs)
      | .error _ => ({ st with answer := cannedHelpMsg }, prefs)

/-- `ConversationWorkflow._execute_search_or_respond`: a detected preference
update answers immediately (and skips the memory write); otherwise the turn
searches or converses and then appends the user/assistant pair to memory. -/
def executeSearchOrRespond (C : Collabs) (prefs : UserPreferences) (mem : List Msg)
    (st : BotState) : BotState × UserPreferences × List Msg :=
  let r := handlePreferenceUpdate C prefs st
  if r.1 then (r.2.1, r.2.2, mem)
  else
    let step : BotState × UserPreferences :=
      if r.2.1.should_retrieve then (handleProductSearch C r.2.2 r.2.1, r.2.2)
      else handleGeneralConversation C r.2.2 mem r.2.1
    (step.1, step.2, mem ++ [Msg.human step.1.question, Msg.ai step.1.answer])

/-- The compiled two-node graph: `process_and_route` then
`search_or_respond` (the edge is unconditional). -/
def agentInvoke (C : Collabs) (prefs : UserPreferences) (mem : List Msg) (st : BotState) :
    BotState × UserPreferences × List Msg :=
  let r1 := processInputAndRoute C prefs st
  executeSearchOrRespond C r1.2 mem r1.1

/-- `ConversationWorkflow.process_message`: builds the initial state and runs
the graph; every collaborator failure is already caught inside the nodes, so
the surrounding `try` never reaches its `techDifficultiesMsg` fallback.
Returns the answer together with the session's preference record and chat
memory after the turn. -/
def processMessage (C : Collabs) (prefs : UserPreferences) (mem : List Msg)
    (input : String) : String × UserPreferences × List Msg :=
  let st0 : BotState := { question := input, answer := "", should_retrieve := false }
  let r := agentInvoke C prefs mem st0
  (r.1.answer, r.2)

/-! ### Lemmas about the `dict.fromkeys` deduplication -/

theorem mem_pyDedupGo {x : String} (l : List String) :
    ∀ seen, x ∈ pyDedupGo seen l ↔ x ∈ l ∧ x ∉ seen := by
  induction l with
  | nil => intro seen; simp [pyDedupGo]
  | cons y ys ih =>
    intro seen
    simp only [pyDedupGo]
    by_cases hy : y ∈ seen
    · rw [if_pos hy, ih]
      simp only [List.mem_cons]
      constructor
      · rintro ⟨hxs, hns⟩
        exact ⟨Or.inr hxs, hns⟩
      · rintro ⟨rfl | hxs, hns⟩
        · exact absurd hy hns
        · exact ⟨hxs, hns⟩
    · rw [if_neg hy]
      simp only [List.mem_cons, ih, List.mem_cons]
      constructor
      · rintro (rfl | ⟨hxs, hnxs⟩)
        · exact ⟨Or.inl rfl, hy⟩
        · exact ⟨Or.inr hxs, fun hs => hnxs (Or.inr hs)⟩
      · rintro ⟨rfl | hxs, hns⟩
        · exact Or.inl rfl
        · by_cases hxy : x = y
          · exact Or.inl hxy
          · exact Or.inr ⟨hxs, fun h => h.elim hxy hns⟩

theorem nodup_pyDedupGo (l : List String) : ∀ seen, (pyDedupGo seen l).Nodup := by
  induction l with
  | nil => intro seen; simp [pyDedupGo]
  | cons y ys ih =>
    intro seen
    simp only [pyDedupGo]
    by_cases hy : y ∈ seen
    · rw [if_pos hy]; exact ih seen
    · rw [if_neg hy]
      refine List.nodup_cons.mpr ⟨fun hmem => ?_, ih (y :: seen)⟩
      exact ((mem_pyDedupGo ys (y :: seen)).mp hmem).2 (List.mem_cons_self y seen)

theorem pyDedupGo_eq_self (l : List String) :
    ∀ seen, l.Nodup → (∀ x ∈ l, x ∉ seen) → pyDedupGo seen l = l := by
  induction l with
  | nil => intro seen _ _; rfl
  | cons y ys ih =>
    intro seen hnd hout
    have hy : y ∉ seen := hout y (List.mem_cons_self y ys)
    simp only [pyDedupGo, if_neg hy]
    have hnd' := List.nodup_cons.mp hnd
    refine congrArg (y :: ·) (ih (y :: seen) hnd'.2 fun x hx => ?_)
    intro hmem
    rcases List.mem_cons.mp hmem with rfl | hs
    · exact hnd'.1 hx
    · exact hout x (List.mem_cons_of_mem y hx) hs

theorem pyDedupGo_all_seen (l : List String) :
    ∀ seen, (∀ x ∈ l, x ∈ seen) → pyDedupGo seen l = [] := by
  induction l with
  | nil => intro seen _; rfl
  | cons y ys ih =>
    intro seen h
    simp only [pyDedupGo, if_pos (h y (List.mem_cons_self y ys))]
    exact ih seen fun x hx => h x (List.mem_cons_of_mem y hx)

theorem pyDedupGo_append_absorb (a : List String) :
    ∀ (seen b : List String), (∀ y ∈ b, y ∈ a ∨ y ∈ seen) →
      pyDedupGo seen (a ++ b) = pyDedupGo seen a := by
  induction a with
  | nil =>
    intro seen b h
    simp only [List.nil_append]
    exact pyDedupGo_all_seen b seen fun y hy => ((h y hy).elim (fun hf => absurd hf (List.not_mem_nil y)) id)
  | cons x xs ih =>
    intro seen b h
    simp only [List.cons_append, pyDedupGo]
    by_cases hx : x ∈ seen
    · rw [if_pos hx, if_pos hx]
      refine ih seen b fun y hy => ?_
      rcases h y hy with hya | hys
      · rcases List.mem_cons.mp hya with rfl | hyxs
        · exact Or.inr hx
        · exact Or.inl hyxs
      · exact Or.inr hys
    · rw [if_neg hx, if_neg hx]
      refine congrArg (x :: ·) (ih (x :: seen) b fun y hy => ?_)
      rcases h y hy with hya | hys
      · rcases List.mem_cons.mp hya with rfl | hyxs
        · exact Or.inr (List.mem_cons_self y seen)
        · exact Or.inl hyxs
      · exact Or.inr (List.mem_cons_of_mem x hys)

theorem pyDedup_append_of_subset (l b : List String) (h : ∀ y ∈ b, y ∈ l) :
    pyDedup (pyDedup l ++ b) = pyDedup l := by
  unfold pyDedup
  rw [pyDedupGo_append_absorb (pyDedupGo [] l) [] b
      (fun y hy => Or.inl ((mem_pyDedupGo l []).mpr ⟨h y hy, List.not_mem_nil y⟩))]
  exact pyDedupGo_eq_self _ [] (nodup_pyDedupGo l []) (fun x _ => List.not_mem_nil x)

theorem specDedup_nil : specDedup [] = [] := by
  rw [specDedup.eq_def]

theorem specDedup_cons (x : String) (xs : List String) :
    specDedup (x :: xs) = x :: specDedup (xs.filter (fun y => decide (y ≠ x))) := by
  rw [specDedup.eq_def]

theorem pyDedupGo_eq_specDedup (l : List String) :
    ∀ seen, pyDedupGo seen l = specDedup (l.filter (fun y => decide (y ∉ seen))) := by
  induction l with
  | nil => intro seen; simp [pyDedupGo, specDedup_nil]
  | cons x xs ih =>
    intro seen
    simp only [pyDedupGo, List.filter_cons]
    by_cases hx : x ∈ seen
    · rw [if_pos hx]
      have hd : decide (x ∉ seen) = false := by simp [hx]
      rw [hd]
      rw [if_neg Bool.false_ne_true]
      exact ih seen
    · have hdx : decide (x ∉ seen) = true := by simp [hx]
      rw [if_neg hx, hdx, if_pos rfl]
      rw [specDedup_cons, List.filter_filter]
      refine congrArg (x :: ·) ?_
      rw [ih (x :: seen)]
      refine congrArg specDedup (List.filter_congr fun y _ => ?_)
      simp [List.mem_cons, not_or, Bool.decide_and]

theorem pyDedup_eq_specDedup (l : List String) : pyDedup l = specDedup l := by
  rw [pyDedup, pyDedupGo_eq_specDedup l []]
  exact congrArg specDedup (List.filter_eq_self.mpr fun a _ => by simp)

/-! ### Lemmas about price parsing and the hard filter -/

theorem asString_toList (s : String) : s.toList.asString = s := rfl

theorem parseUnsigned_chars {body : List Char} {v : ℚ} (h : parseUnsigned body = some v) :
    ∀ c ∈ body, c.isDigit = true ∨ c = '.' := by
  intro c hc
  simp only [parseUnsigned] at h
  split at h
  case _ heq =>
    have hbody : body = body.takeWhile Char.isDigit := by
      conv_lhs => rw [← List.takeWhile_append_dropWhile Char.isDigit body]
      rw [heq, List.append_nil]
    rw [hbody] at hc
    exact Or.inl (List.mem_takeWhile_imp hc)
  case _ frac heq =>
    rcases Bool.and_eq_true_iff.mp (by
      by_contra hguard
      rw [if_neg (fun hg => hguard hg)] at h
      exact Option.noConfusion h) with ⟨hall, _⟩
    have hbody : body = body.takeWhile Char.isDigit ++ '.' :: frac := by
      conv_lhs => rw [← List.takeWhile_append_dropWhile Char.isDigit body]
      rw [heq]
    rw [hbody] at hc
    rcases List.mem_append.mp hc with hl | hr
    · exact Or.inl (List.mem_takeWhile_imp hl)
    · rcases List.mem_cons.mp hr with rfl | hfrac
      · exact Or.inr rfl
      · exact Or.inl (List.all_eq_true.mp hall c hfrac)
  case _ => exact absurd h (by simp)

theorem parseFloat_chars {s : String} {v : ℚ} (h : parseFloat s = some v) :
    ∀ c ∈ s.toList, c = '-' ∨ c = '+' ∨ c.isDigit = true ∨ c = '.' := by
  intro c hc
  unfold parseFloat at h
  split at h
  case _ rest heq =>
    rcases Option.map_eq_some'.mp h with ⟨w, hw, _⟩
    rw [heq] at hc
    rcases List.mem_cons.mp hc with rfl | hrest
    · exact Or.inl rfl
    · exact Or.inr (Or.inr (parseUnsigned_chars hw c hrest))
  case _ rest heq =>
    rw [heq] at hc
    rcases List.mem_cons.mp hc with rfl | hrest
    · exact Or.inr (Or.inl rfl)
    · exact Or.inr (Or.inr (parseUnsigned_chars h c hrest))
  case _ =>
    exact Or.inr (Or.inr (parseUnsigned_chars h c hc))

theorem stripDollarComma_of_parse {s : String} {v : ℚ} (h : parseFloat s = some v) :
    stripDollarComma s = s := by
  have hc := parseFloat_chars h
  unfold stripDollarComma
  have hfilter : s.toList.filter (fun c => !(c == '$' || c == ',')) = s.toList := by
    refine List.filter_eq_self.mpr fun c hcs => ?_
    rcases hc c hcs with rfl | rfl | hd | rfl
    · decide
    · decide
    · simp only [Bool.not_eq_true', Bool.or_eq_false_iff, beq_eq_false_iff_ne, ne_eq]
      constructor
      · rintro rfl; exact absurd hd (by decide)
      · rintro rfl; exact absurd hd (by decide)
    · decide
  rw [hfilter]
  exact asString_toList s

theorem innerParse_of_pyFloat {p : PVal} {v : ℚ} (h : pyFloatPrice p = some v) :
    innerParsePrice p = some v := by
  cases p with
  | num q => exact h
  | str s =>
    simp only [pyFloatPrice] at h
    simp only [innerParsePrice, stripDollarComma_of_parse h, h]
  | none_ => exact absurd h (by simp [pyFloatPrice])

/-- Re-priced document: the parsed price is written back into the metadata,
as `search_products` does before sorting. -/
def normPrice (d : Doc) : Doc := { d with price := .num ((pyFloatPrice d.price).getD 0) }

/-- Modelled from the claim's wording: a candidate is kept exactly when it
resolves to a known catalog asset, its price parses to a number lying within
`[price_min, price_max]` inclusive (open on an unset bound), and it matches
the brand/color/category substring constraints whenever those preference
fields are non-empty. -/
def specKeepsCandidate (catalog : List String) (p : UserPreferences) (d : Doc) : Bool :=
  catalog.contains d.url &&
  (match pyFloatPrice d.price with
   | none => false
   | some v =>
     (match p.price_min with | some m => decide (m ≤ v) | none => true) &&
     (match p.price_max with | some M => decide (v ≤ M) | none => true)) &&
  (p.brands.isEmpty || p.brands.any (fun b => strHasSub (pyLower d.brand) (pyLower b))) &&
  (p.colors.isEmpty ||
    p.colors.any (fun c => strHasSub (pyLower d.name ++ " " ++ pyLower d.page_content) (pyLower c))) &&
  (p.categories.isEmpty ||
    p.categories.any (fun c => strHasSub (pyLower d.name ++ " " ++ pyLower d.page_content) (pyLower c)))

theorem normalizeKeep_eq_ite (catalog : List String) (p : UserPreferences) (d : Doc) :
    normalizeKeep catalog p d =
      if specKeepsCandidate catalog p d then some (normPrice d) else none := by
  unfold normalizeKeep specKeepsCandidate matchesPreferences normPrice
  rcases hv : pyFloatPrice d.price with _ | v
  · simp
  · rw [innerParse_of_pyFloat hv]
    rcases hmin : p.price_min with _ | m <;> rcases hmax : p.price_max with _ | M <;>
      simp [Bool.and_comm, Bool.and_assoc, Bool.and_left_comm]

theorem mem_insertDesc {z x : Doc} (l : List Doc) :
    z ∈ insertDesc x l ↔ z = x ∨ z ∈ l := by
  induction l with
  | nil => simp [insertDesc]
  | cons y ys ih =>
    simp only [insertDesc]
    by_cases hle : priceKey y ≤ priceKey x
    · rw [if_pos hle]; simp [List.mem_cons]
    · rw [if_neg hle]
      simp only [List.mem_cons, ih]
      tauto

theorem pairwise_insertDesc (x : Doc) (l : List Doc)
    (h : l.Pairwise (fun a b => priceKey b ≤ priceKey a)) :
    (insertDesc x l).Pairwise (fun a b => priceKey b ≤ priceKey a) := by
  induction l with
  | nil => simp [insertDesc]
  | cons y ys ih =>
    rcases List.pairwise_cons.mp h with ⟨hy, hys⟩
    simp only [insertDesc]
    by_cases hle : priceKey y ≤ priceKey x
    · rw [if_pos hle]
      refine List.pairwise_cons.mpr ⟨?_, h⟩
      intro z hz
      rcases List.mem_cons.mp hz with rfl | hzys
      · exact hle
      · exact le_trans (hy z hzys) hle
    · rw [if_neg hle]
      refine List.pairwise_cons.mpr ⟨?_, ih hys⟩
      intro z hz
      rcases (mem_insertDesc ys).mp hz with rfl | hzys
      · exact le_of_lt (lt_of_not_le hle)
      · exact hy z hzys

theorem sortByPriceDesc_sorted (l : List Doc) :
    (sortByPriceDesc l).Pairwise (fun a b => priceKey b ≤ priceKey a) := by
  induction l with
  | nil => simp [sortByPriceDesc]
  | cons x xs ih => exact pairwise_insertDesc x (sortByPriceDesc xs) ih

theorem filterMap_normalizeKeep (catalog : List String) (p : UserPreferences) :
    ∀ l : List Doc,
      l.filterMap (normalizeKeep catalog p) =
        (l.filter (specKeepsCandidate catalog p)).map normPrice := by
  intro l
  induction l with
  | nil => rfl
  | cons d ds ih =>
    rw [List.filterMap_cons, List.filter_cons, normalizeKeep_eq_ite]
    by_cases hk : specKeepsCandidate catalog p d
    · rw [if_pos hk, if_pos hk, List.map_cons, ih]
    · rw [if_neg hk, if_neg hk, ih]

theorem validateCategories_spec (cats : List String) :
    (∀ x ∈ (validateCategories cats).1, x ∈ BAG_CATEGORIES) ∧
    (∀ x ∈ (validateCategories cats).2, x ∉ BAG_CATEGORIES ∧ x ≠ "tote") := by
  induction cats with
  | nil =>
    constructor <;> intro x hx <;> simp [validateCategories] at hx
  | cons c rest ih =>
    obtain ⟨ih1, ih2⟩ := ih
    rcases hvr : validateCategories rest with ⟨vs, fs⟩
    rw [hvr] at ih1 ih2
    simp only [validateCategories, hvr]
    by_cases h1 : pyTrim (pyLower c) ∈ BAG_CATEGORIES
    · rw [if_pos h1]
      refine ⟨fun x hx => ?_, ih2⟩
      rcases List.mem_cons.mp hx with rfl | hxs
      · exact h1
      · exact ih1 x hxs
    · rw [if_neg h1]
      rcases hlook : categoryCorrections.lookup (pyTrim (pyLower c)) with _ | corr
      · dsimp only
        by_cases h2 : (pyTrim (pyLower c) ++ " bag") ∈ BAG_CATEGORIES
        · rw [if_pos h2]
          refine ⟨fun x hx => ?_, ih2⟩
          rcases List.mem_cons.mp hx with rfl | hxs
          · exact h2
          · exact ih1 x hxs
        · rw [if_neg h2]
          by_cases h3 : pyTrim (pyLower c) ≠ "tote"
          · rw [if_pos h3]
            refine ⟨ih1, fun x hx => ?_⟩
            rcases List.mem_cons.mp hx with rfl | hxs
            · exact ⟨h1, h3⟩
            · exact ih2 x hxs
          · rw [if_neg h3]
            exact ⟨ih1, ih2⟩
      · dsimp only
        by_cases h2 : corr ∈ BAG_CATEGORIES
        · rw [if_pos h2]
          refine ⟨fun x hx => ?_, ih2⟩
          rcases List.mem_cons.mp hx with rfl | hxs
          · exact h2
          · exact ih1 x hxs
        · rw [if_neg h2]
          exact ⟨ih1, ih2⟩

/-! ### Claim theorems: the merge (C5, C6, C7, C8) -/

/-- Claim C5: for every append-mode merge and every set-valued field, the
resulting field equals the deduplicated concatenation of the existing entries
followed by the delta's entries, preserving first-seen order; in particular
existing colors `[black, red]` merged with delta colors `[red, blue]` yield
`[black, red, blue]`. -/
theorem C5_append_merge_dedup_concat (cur np : UserPreferences) :
    (mergePreferences cur np true).brands = specDedup (cur.brands ++ np.brands) ∧
    (mergePreferences cur np true).categories = specDedup (cur.categories ++ np.categories) ∧
    (mergePreferences cur np true).colors = specDedup (cur.colors ++ np.colors) ∧
    (mergePreferences cur np true).materials = specDedup (cur.materials ++ np.materials) ∧
    (mergePreferences cur np true).features = specDedup (cur.features ++ np.features) ∧
    (mergePreferences { colors := ["black", "red"] } { colors := ["red", "blue"] } true).colors
      = ["black", "red", "blue"] := by
  refine ⟨?_, ?_, ?_, ?_, ?_, by decide⟩ <;>
    simp [mergePreferences, pyDedup_eq_specDedup]

/-- Claim C6: for every replace-mode merge and every set-valued field, a
non-empty delta field fully replaces the existing value, while an empty delta
field leaves the existing value untouched. -/
theorem C6_replace_mode_fields (cur np : UserPreferences) :
    ((np.brands ≠ [] → (mergePreferences cur np false).brands = np.brands) ∧
     (np.brands = [] → (mergePreferences cur np false).brands = cur.brands)) ∧
    ((np.categories ≠ [] → (mergePreferences cur np false).categories = np.categories) ∧
     (np.categories = [] → (mergePreferences cur np false).categories = cur.categories)) ∧
    ((np.colors ≠ [] → (mergePreferences cur np false).colors = np.colors) ∧
     (np.colors = [] → (mergePreferences cur np false).colors = cur.colors)) ∧
    ((np.materials ≠ [] → (mergePreferences cur np false).materials = np.materials) ∧
     (np.materials = [] → (mergePreferences cur np false).materials = cur.materials)) ∧
    ((np.features ≠ [] → (mergePreferences cur np false).features = np.features) ∧
     (np.features = [] → (mergePreferences cur np false).features = cur.features)) := by
  refine ⟨⟨?_, ?_⟩, ⟨?_, ?_⟩, ⟨?_, ?_⟩, ⟨?_, ?_⟩, ⟨?_, ?_⟩⟩ <;> intro h <;>
    simp [mergePreferences, h]

/-- Witness for C6 at a concrete record: replacing categories `[tote bag]`
with delta `[backpack]` yields `[backpack]`, and an empty delta colors field
leaves existing colors `[black]` untouched. -/
theorem C6_replace_mode_fields_witness :
    (mergePreferences { categories := ["tote bag"] } { categories := ["backpack"] } false).categories
        = ["backpack"] ∧
    (mergePreferences { colors := ["black"] } {} false).colors = ["black"] :=
  ⟨(C6_replace_mode_fields { categories := ["tote bag"] } { categories := ["backpack"] }).2.1.1
      (by decide),
   (C6_replace_mode_fields { colors := ["black"] } {}).2.2.1.2 (by decide)⟩

/-- Claim C7: in both merge modes a non-null delta price bound overwrites the
corresponding current bound and a null delta bound leaves it unchanged; in
particular existing `price_max = 200` with delta `price_max = 100` in append
mode yields `price_max = 100`. -/
theorem C7_price_overwrite_mode_independent (cur np : UserPreferences) (mode : Bool) :
    ((mergePreferences cur np mode).price_min =
      match np.price_min with | some v => some v | none => cur.price_min) ∧
    ((mergePreferences cur np mode).price_max =
      match np.price_max with | some v => some v | none => cur.price_max) ∧
    (mergePreferences { price_max := some 200 } { price_max := some 100 } true).price_max
      = some 100 := by
  refine ⟨?_, ?_, by decide⟩
  · cases hm : np.price_min <;> simp [mergePreferences, hm]
  · cases hm : np.price_max <;> simp [mergePreferences, hm]

/-- Claim C8: merging the same normalized delta twice with the same mode
yields the same record as merging it once. -/
theorem C8_merge_idempotent (cur np : UserPreferences) (mode : Bool) :
    mergePreferences (mergePreferences cur np mode) np mode = mergePreferences cur np mode := by
  have habs : ∀ a b : List String, pyDedup (pyDedup (a ++ b) ++ b) = pyDedup (a ++ b) :=
    fun a b => pyDedup_append_of_subset (a ++ b) b (fun y hy => List.mem_append_right a hy)
  cases mode with
  | false =>
    apply UserPreferences.ext
    · cases hm : np.price_min <;> simp [mergePreferences, hm]
    · cases hm : np.price_max <;> simp [mergePreferences, hm]
    · by_cases hb : np.brands.isEmpty <;> simp [mergePreferences, hb]
    · by_cases hb : np.categories.isEmpty <;> simp [mergePreferences, hb]
    · by_cases hb : np.colors.isEmpty <;> simp [mergePreferences, hb]
    · by_cases hb : np.materials.isEmpty <;> simp [mergePreferences, hb]
    · by_cases hb : np.features.isEmpty <;> simp [mergePreferences, hb]
  | true =>
    apply UserPreferences.ext
    · cases hm : np.price_min <;> simp [mergePreferences, hm]
    · cases hm : np.price_max <;> simp [mergePreferences, hm]
    · simp [mergePreferences, habs]
    · simp [mergePreferences, habs]
    · simp [mergePreferences, habs]
    · simp [mergePreferences, habs]
    · simp [mergePreferences, habs]

/-! ### Claim theorems: normalization invariants (C2, C4) -/

/-- Claim C2 counterexample: a normalized delta carrying the token `black` in
both `colors` and `features` is merged with both occurrences intact, so after
the merge `black` sits in two of the five set-valued fields at once. -/
theorem C2_cross_field_duplicate :
    (validateAndMerge {} { colors := ["black"], features := ["black"] } "black").colors
        = ["black"] ∧
    (validateAndMerge {} { colors := ["black"], features := ["black"] } "black").features
        = ["black"] := by
  decide

/-- Claim C2 as amended: category validation alone keeps fields disjoint — a
token placed in the validated categories is never also among the tokens moved
to features, and the literal token `tote` is never among the tokens moved to
features; the merge enforces no cross-field uniqueness beyond this. -/
theorem C2_validation_disjoint (cats : List String) :
    (∀ x ∈ (validateCategories cats).1, x ∉ (validateCategories cats).2) ∧
    "tote" ∉ (validateCategories cats).2 := by
  obtain ⟨h1, h2⟩ := validateCategories_spec cats
  exact ⟨fun x hx hx2 => (h2 x hx2).1 (h1 x hx), fun ht => (h2 _ ht).2 rfl⟩

/-- Witness for the amended C2 at a concrete token list. -/
theorem C2_validation_disjoint_witness :
    "tote" ∉ (validateCategories ["tote", "sling"]).2 :=
  (C2_validation_disjoint ["tote", "sling"]).2

/-- Claim C4 counterexample: on input token `tote`, category validation
returns `tote` itself in categories — it neither resolves it to `tote bag`
nor omits it, contradicting the claimed behaviour. -/
theorem C4_tote_kept_as_tote :
    validateCategories ["tote"] = (["tote"], []) ∧
    validateCategories ["tote"] ≠ (["tote bag"], []) ∧
    validateCategories ["tote"] ≠ ([], []) := by
  decide

/-- Claim C4 as amended: `cross-body` is normalized to `crossbody` and placed
in categories (never features); `tote` is itself a member of the category
vocabulary and is kept unchanged in categories, never reaching features —
the `tote → tote bag` correction is unreachable, and `tote bag` is not in the
vocabulary anyway. -/
theorem C4_category_normalization :
    validateCategories ["cross-body"] = (["crossbody"], []) ∧
    validateCategories ["tote"] = (["tote"], []) ∧
    "tote" ∈ BAG_CATEGORIES ∧ "tote bag" ∉ BAG_CATEGORIES := by
  decide

/-! ### Claim theorems: the turn pipeline (C1, C3, C10) -/

/-- A session with no configured collaborators: no extraction chain, no
conversation chain, vector store unavailable. -/
def noCollabs : Collabs :=
  { prefChain := none, convChain := none, vectorAvailable := false,
    vectorSearch := fun _ _ => .ok [], catalog := [], format := fun _ => "" }

/-- A session whose every collaborator call raises. -/
def failingCollabs : Collabs :=
  { prefChain := some fun _ _ => .error (), convChain := some fun _ _ _ => .error (),
    vectorAvailable := true, vectorSearch := fun _ _ => .error (), catalog := [],
    format := fun _ => "" }

/-- When the turn's preference extraction leaves the record unchanged, a
processed message reduces to the second graph node applied to the state
produced by the router. -/
theorem turn_structure (C : Collabs) (prefs : UserPreferences) (mem : List Msg)
    (input : String) (hupd : updateOutcome C prefs input = (prefs, prefs)) :
    processMessage C prefs mem input =
      (fun r => (r.1.answer, r.2))
        (executeSearchOrRespond C prefs mem
          ⟨input, if isRelevantToShopping input then ("") else redirectMsg,
           isRelevantToShopping input &&
             shouldSearchProducts input (hasActivePreferences prefs)⟩) := by
  unfold processMessage agentInvoke processInputAndRoute updatePreferences
  by_cases hrel : isRelevantToShopping input <;> simp [hrel, hupd]

/-- Claim C1 (code bug evaluation): the utterance `what is the weather`
contains no shopping and no courtesy term, yet the processed turn answers with
the general-conversation fallback rather than the fixed redirect, and appends
the turn to the chat memory — the second graph node runs unconditionally and
overwrites the redirect answer set by the router. -/
theorem C1_out_of_domain_not_redirected :
    isRelevantToShopping ("what is the weather") = false ∧
    processMessage noCollabs {} [] ("what is the weather") =
      (cannedHelpMsg, {}, [Msg.human ("what is the weather"), Msg.ai cannedHelpMsg]) ∧
    cannedHelpMsg ≠ redirectMsg := by
  decide

/-- Claim C3 counterexample: with active preferences (brands `[Fossil]`), the
reset utterance `clear preferences` is ≤ 3 words, so the router sets the
search flag and the turn goes to product search — the record is not cleared
and the fixed acknowledgement is not returned. -/
theorem C3_reset_routed_to_search :
    containsResetPhrase ("clear preferences") = true ∧
    processMessage noCollabs { brands := ["Fossil"] } [] ("clear preferences") =
      (noProductsMsg, { brands := ["Fossil"] },
       [Msg.human ("clear preferences"), Msg.ai noProductsMsg]) ∧
    ({ brands := ["Fossil"] } : UserPreferences) ≠ clearedPreferences ∧
    noProductsMsg ≠ clearAckMsg := by
  decide

/-- Claim C3 as amended: a turn whose utterance contains a reset phrase clears
all seven Preference Record fields to their empty/null defaults and returns
the fixed acknowledgement only when it reaches general-conversation handling —
here: the extraction chain is absent (so no preference change is detected) and
search intent is not triggered for the utterance. -/
theorem C3_reset_clears_in_general_conversation (C : Collabs) (prefs : UserPreferences)
    (mem : List Msg) (input : String)
    (hpc : C.prefChain = none)
    (hreset : containsResetPhrase input = true)
    (hns : shouldSearchProducts input (hasActivePreferences prefs) = false) :
    processMessage C prefs mem input =
      (clearAckMsg, clearedPreferences, mem ++ [Msg.human input, Msg.ai clearAckMsg]) := by
  have hupd : updateOutcome C prefs input = (prefs, prefs) := by
    simp [updateOutcome, hpc]
  rw [turn_structure C prefs mem input hupd]
  simp [executeSearchOrRespond, handlePreferenceUpdate, hupd, hns,
    handleGeneralConversation, hreset]

/-- Witness for the amended C3: `reset preferences` on a fresh session. -/
theorem C3_reset_clears_witness :
    processMessage noCollabs {} [] ("reset preferences") =
      (clearAckMsg, clearedPreferences,
       [Msg.human ("reset preferences"), Msg.ai clearAckMsg]) := by
  have h := C3_reset_clears_in_general_conversation noCollabs {} [] ("reset preferences")
    rfl (by decide) (by decide)
  simpa using h

/-- Claim C10 counterexample: when the search collaborator raises during a
product-search turn, the user sees the dedicated search-error apology — a
user-visible failure message distinct from the generic technical-difficulties
fallback, so the latter is not the only user-visible failure mode. -/
theorem C10_search_failure_distinct_message :
    (processMessage failingCollabs {} [] ("show me bags")).1 = searchErrorMsg ∧
    searchErrorMsg ≠ techDifficultiesMsg := by
  decide

/-- Claim C10 as amended: every collaborator failure is caught at its call
boundary — with the extraction chain, conversation chain and vector search all
raising on every call, any turn still returns one of the fixed fallback
messages (search-error apology, reset acknowledgement, or canned help reply),
never the technical-difficulties message, and the preference record survives
unchanged except for an explicit reset. -/
theorem C10_failures_caught_at_boundaries
    (pcf : String → UserPreferences → Except Unit UserPreferences)
    (ccf : String → String → String → Except Unit String)
    (sf : String → Nat → Except Unit (List Doc))
    (cat : List String) (fmt : Doc → String)
    (prefs : UserPreferences) (mem : List Msg) (input : String)
    (hp : ∀ a b, pcf a b = .error ())
    (hc : ∀ a b c, ccf a b c = .error ())
    (hs : ∀ a k, sf a k = .error ()) :
    ((processMessage ⟨some pcf, some ccf, true, sf, cat, fmt⟩ prefs mem input).1 = searchErrorMsg ∨
     (processMessage ⟨some pcf, some ccf, true, sf, cat, fmt⟩ prefs mem input).1 = clearAckMsg ∨
     (processMessage ⟨some pcf, some ccf, true, sf, cat, fmt⟩ prefs mem input).1 = cannedHelpMsg) ∧
    (processMessage ⟨some pcf, some ccf, true, sf, cat, fmt⟩ prefs mem input).1
        ≠ techDifficultiesMsg ∧
    ((processMessage ⟨some pcf, some ccf, true, sf, cat, fmt⟩ prefs mem input).2.1 = prefs ∨
     (processMessage ⟨some pcf, some ccf, true, sf, cat, fmt⟩ prefs mem input).2.1
        = clearedPreferences) := by
  have hupd : updateOutcome ⟨some pcf, some ccf, true, sf, cat, fmt⟩ prefs input
      = (prefs, prefs) := by
    simp [updateOutcome, hp]
  have hse : searchProductsE ⟨some pcf, some ccf, true, sf, cat, fmt⟩ input prefs
      = .error () := by
    simp [searchProductsE, hs]
  rw [turn_structure _ prefs mem input hupd]
  simp only [executeSearchOrRespond, handlePreferenceUpdate, hupd]
  by_cases hsr : isRelevantToShopping input &&
      shouldSearchProducts input (hasActivePreferences prefs)
  · simp [hsr, handleProductSearch, hse]
    decide
  · simp only [hsr]
    by_cases hrst : containsResetPhrase input
    · simp [handleGeneralConversation, hrst]
      decide
    · simp [handleGeneralConversation, hrst, hc]
      decide

/-- Witness for the amended C10: every collaborator failing on `hello` still
yields a canned reply, not the technical-difficulties message. -/
theorem C10_failures_caught_witness :
    (processMessage ⟨some fun _ _ => .error (), some fun _ _ _ => .error (), true,
        fun _ _ => .error (), [], fun _ => ""⟩ {} [] ("hello")).1 ≠ techDifficultiesMsg :=
  (C10_failures_caught_at_boundaries (fun _ _ => .error ()) (fun _ _ _ => .error ())
      (fun _ _ => .error ()) [] (fun _ => "") {} [] ("hello")
      (fun _ _ => rfl) (fun _ _ _ => rfl) (fun _ _ => rfl)).2.1

/-! ### Claim theorem: search filtering and ranking (C9) -/

/-- Claim C9: product search keeps exactly the candidates that resolve to a
known catalog asset, whose price parses and lies within the inclusive price
bounds (open on an unset bound), and that satisfy the brand/color/category
substring constraints when set; survivors are sorted by price descending and
truncated to the requested count (the last argument, defaulting to 6).  A
candidate with unparseable price is dropped, a candidate priced 150 against
`price_max = 100` is excluded, and candidates priced `[50, 200, 75]` come out
ordered `[200, 75, 50]`. -/
theorem C9_search_filter_sort_truncate :
    (∀ (catalog : List String) (p : UserPreferences) (d : Doc),
        (normalizeKeep catalog p d).isSome = specKeepsCandidate catalog p d) ∧
    (∀ (retrieved : List Doc) (catalog : List String) (p : UserPreferences) (k : Nat),
        searchProducts retrieved catalog p k =
          (sortByPriceDesc
            ((retrieved.filter (specKeepsCandidate catalog p)).map normPrice)).take k) ∧
    (∀ (retrieved : List Doc) (catalog : List String) (p : UserPreferences) (k : Nat),
        (searchProducts retrieved catalog p k).Pairwise (fun a b => priceKey b ≤ priceKey a)) ∧
    specKeepsCandidate ["u"] {} ⟨"u", "c", "n", "b", .str ("abc")⟩ = false ∧
    specKeepsCandidate ["u"] { price_max := some 100 } ⟨"u", "c", "n", "b", .num 150⟩ = false ∧
    (searchProducts
        [⟨"u1", "c", "n", "b", .num 50⟩, ⟨"u2", "c", "n", "b", .num 200⟩,
         ⟨"u3", "c", "n", "b", .num 75⟩] ["u1", "u2", "u3"] {}).map priceKey
      = [200, 75, 50] := by
  refine ⟨?_, ?_, ?_, by decide, by decide, by decide⟩
  · intro catalog p d
    rw [normalizeKeep_eq_ite]
    by_cases h : specKeepsCandidate catalog p d <;> simp [h]
  · intro retrieved catalog p k
    unfold searchProducts
    rw [filterMap_normalizeKeep]
  · intro retrieved catalog p k
    exact List.Pairwise.sublist (List.take_sublist k _) (sortByPriceDesc_sorted _)

end Shop
